import Mathlib

/-!
# Verification of the test-emergency speech subsystem

Shallow embedding of the country-to-language resolution and multi-utterance
speech-queue construction from `src/my-app/src/App.jsx`, together with proofs
of the specified properties.

JavaScript specifics kept in the model:
* the `lang` property of a voice may be missing (`Option String`);
* the `x || y` idiom treats the empty string as falsy (`jsOr`);
* `String.prototype.toUpperCase` / `toLowerCase` are modelled on the ASCII
  range, which covers every language tag and country code in the tables.
-/

namespace RiverHacks

/-- JS `a || b` on strings: `a` unless it is empty (falsy), else `b`. -/
def jsOr (a : Option String) (b : String) : String :=
  match a with
  | some s => if s = "" then b else s
  | none => b

/-- `EMERGENCY_PHRASE` table from App.jsx: language code to announcement text. -/
def EMERGENCY_PHRASE : List (String × String) :=
  [ ("en", "THIS IS A TEST EMERGENCY")
  , ("es", "ESTA ES UNA EMERGENCIA DE PRUEBA")
  , ("zh", "这是一条测试紧急通知")
  , ("hi", "यह एक परीक्षण आपातकाल है")
  , ("ar", "هذه حالة طوارئ تجريبية")
  , ("fr", "Ceci est une alerte d’urgence de test")
  , ("vi", "ĐÂY LÀ TÌNH HUỐNG KHẨN CẤP THỬ NGHIỆM")
  , ("pt", "ISTO É UMA EMERGÊNCIA DE TESTE")
  , ("ru", "ЭТО ТЕСТОВОЕ ЧРЕЗВЫЧАЙНОЕ СООБЩЕНИЕ")
  , ("ja", "これはテスト緊急放送です")
  , ("ko", "이것은 시험 비상 안내입니다")
  , ("de", "DIES IST EINE TEST-NOTFALLMELDUNG")
  , ("tl", "ITO AY ISANG PAGSUSUBOK NA EMERHENSIYA")
  , ("ur", "یہ ایک آزمائشی ہنگامی صورتحال ہے")
  , ("fa", "این یک وضعیت اضطراری آزمایشی است")
  , ("tr", "BU BİR DENEME ACİL DURUMU")
  , ("it", "QUESTO È UN’EMERGENZA DI PROVA")
  , ("pl", "TO JEST TESTOWY ALARM")
  , ("nl", "Dit is een test-noodmelding")
  , ("pa", "ਇਹ ਇੱਕ ਟੈਸਟ ਐਮਰਜੈਂਸੀ ਹੈ")
  , ("bn", "এটি একটি পরীক্ষামূলক জরুরি অবস্থা")
  , ("ta", "இது ஒரு சோதனை அவசர நிலை")
  , ("te", "ఇది ఒక పరీక్ష అత్యవసర పరిస్థితి")
  , ("mr", "ही एक चाचणी आपत्कालीन स्थिती आहे") ]

/-- `COUNTRY_LANGS` table from App.jsx: country code to top-5 language codes. -/
def COUNTRY_LANGS : List (String × List String) :=
  [ ("US", ["en","es","zh","vi","ar"])
  , ("CA", ["en","fr","zh","pa","es"])
  , ("MX", ["es","en","zh","fr","de"])
  , ("BR", ["pt","en","es","fr","de"])
  , ("GB", ["en","pl","pa","ur","ar"])
  , ("AU", ["en","zh","it","vi","el"])
  , ("IN", ["hi","en","bn","te","ta"])
  , ("CN", ["zh","yue","en","ko","ru"])
  , ("JP", ["ja","en","zh","ko","pt"])
  , ("KR", ["ko","en","zh","ja","vi"])
  , ("FR", ["fr","en","es","ar","pt"])
  , ("DE", ["de","en","tr","ru","pl"])
  , ("ES", ["es","en","ca","gl","fr"])
  , ("IT", ["it","en","fr","es","ro"])
  , ("PT", ["pt","en","es","fr","uk"])
  , ("RU", ["ru","en","uk","tt","az"])
  , ("VN", ["vi","en","zh","fr","ko"])
  , ("PH", ["tl","en","zh","es","ko"])
  , ("TR", ["tr","en","ku","ar","fa"])
  , ("IR", ["fa","az","ku","ps","en"])
  , ("PK", ["ur","pa","sd","ps","en"])
  , ("SA", ["ar","en","ur","fa","hi"])
  , ("NG", ["en","yo","ig","ha","fr"]) ]

/-- Default language list used when a country code has no table entry:
`COUNTRY_LANGS[cc] || ["en","es","fr","ar","zh"]`. -/
def DEFAULT_LANGS : List String := ["en", "es", "fr", "ar", "zh"]

/-- `EMERGENCY_PHRASE[code] || EMERGENCY_PHRASE.en` (App.jsx line 133). -/
def phraseFor (code : String) : String :=
  jsOr (EMERGENCY_PHRASE.lookup code) ((EMERGENCY_PHRASE.lookup "en").getD "")

/-- `COUNTRY_LANGS[cc] || ["en","es","fr","ar","zh"]` (App.jsx line 129). -/
def languagesFor (cc : String) : List String :=
  (COUNTRY_LANGS.lookup cc).getD DEFAULT_LANGS

/-- Model of `String.prototype.startsWith`: `pre` is a prefix of `s`. -/
def jsStartsWith (s pre : String) : Bool := pre.data.isPrefixOf s.data

/-- ASCII model of `String.prototype.toLowerCase` on one character. -/
def jsCharLower (c : Char) : Char :=
  if 65 ≤ c.toNat ∧ c.toNat ≤ 90 then Char.ofNat (c.toNat + 32) else c

/-- ASCII model of `String.prototype.toLowerCase`. -/
def jsToLowerCase (s : String) : String := ⟨s.data.map jsCharLower⟩

/-- A speech-synthesis voice; the `lang` tag may be missing (JS `undefined`). -/
structure Voice where
  lang : Option String
deriving Repr, DecidableEq

/-- `v.lang && v.lang.toLowerCase().startsWith(langCode.toLowerCase())`:
a missing or empty tag is falsy, otherwise a case-insensitive prefix test. -/
def matchesLang (langCode : String) (v : Voice) : Bool :=
  match v.lang with
  | some s => (s != "") && jsStartsWith (jsToLowerCase s) (jsToLowerCase langCode)
  | none => false

/-- `v.lang?.startsWith(p)`: case-sensitive prefix test, false on missing tag. -/
def tagStartsWith (p : String) (v : Voice) : Bool :=
  match v.lang with
  | some s => jsStartsWith s p
  | none => false

/-- `pickVoiceFor(langCode, voices)` from App.jsx lines 89-97:
first the candidates from the case-insensitive prefix filter; if none,
`yue` falls back to a `zh` voice, `tl` to a `fil` voice (each returning
null when that single fallback finds nothing), and every other code falls
back to the first `en` voice. -/
def pickVoiceFor (langCode : String) (voices : List Voice) : Option Voice :=
  match voices.filter (matchesLang langCode) with
  | c :: _ => some c
  | [] =>
    if langCode = "yue" then voices.find? (tagStartsWith "zh")
    else if langCode = "tl" then voices.find? (tagStartsWith "fil")
    else voices.find? (tagStartsWith "en")

/-- ASCII model of `String.prototype.toUpperCase` on one character. -/
def jsCharUpper (c : Char) : Char :=
  if 97 ≤ c.toNat ∧ c.toNat ≤ 122 then Char.ofNat (c.toNat - 32) else c

/-- ASCII model of `String.prototype.toUpperCase`. -/
def jsToUpperCase (s : String) : String := ⟨s.data.map jsCharUpper⟩

/-- `reverseCountryCode` (App.jsx lines 99-107) after the network layer:
`(data?.address?.country_code || "").toUpperCase()`, taking the extracted
`country_code` field (`none` when absent) as input. -/
def reverseCountryCode (field : Option String) : String :=
  jsToUpperCase (jsOr field "")

/-- The voice poll from App.jsx lines 117-125.  The source counts attempts
upward, resolving when the list is non-empty or `tries++ > 10`; we recurse on
the remaining budget `11 - tries` instead (so the initial call has budget 11).
`g n` is the voice list of the device as seen by the `n`-th `getVoices()` call
(0-based); the result is the total number of `getVoices()` calls performed.
When the budget is exhausted (`tries = 11`) the source still calls
`getVoices()` once more and resolves regardless of its result. -/
def waitVoices (g : Nat → List Voice) (call : Nat) : Nat → Nat
  | 0 => call + 1
  | budget + 1 => if (g call).length ≠ 0 then call + 1 else waitVoices g (call + 1) budget

/-- Number of `getVoices()` polls performed by the wait loop of one announcement. -/
def pollCount (g : Nat → List Voice) : Nat := waitVoices g 0 11

/-- A `SpeechSynthesisUtterance` as configured by the orchestrator:
text, optional voice (left as the device default, `none`, when the resolver
returns null), and the fixed rate/pitch. -/
structure Utterance where
  text : String
  voice : Option Voice
  rate : ℚ
  pitch : ℚ
deriving Repr, DecidableEq

/-- One loop body of App.jsx lines 132-141: build the utterance for `code`. -/
def mkUtterance (voices : List Voice) (code : String) : Utterance :=
  { text := phraseFor code
  , voice := pickVoiceFor code voices
  , rate := 0.95
  , pitch := 1.0 }

/-- The utterances enqueued by `synth.speak` for country code `cc`, in order:
`(COUNTRY_LANGS[cc] || default).slice(0, 5)` then one `speak` per language. -/
def speakQueue (voices : List Voice) (cc : String) : List Utterance :=
  ((languagesFor cc).take 5).foldl (fun q code => q ++ [mkUtterance voices code]) []

/-- Observable actions of `speakTestEmergencyAt`, in program order. -/
inductive Action where
  | alertNoSpeech
  | pollVoices
  | geocode
  | speakUtter (u : Utterance)
deriving Repr, DecidableEq

/-- The synthesis device: its voice list as seen by the `n`-th `getVoices()`
call of one announcement. -/
structure SynthDevice where
  voicesAt : Nat → List Voice

/-- Action trace of `speakTestEmergencyAt` (App.jsx lines 109-142), with the
extracted `country_code` field of the geocoder supplied as `geoField`.  When no
synthesis device exists the function alerts and returns; otherwise it polls
the voice list, reads the voices once more, issues the reverse-geocode
request, and enqueues one utterance per language. -/
def speakTestEmergencyAt (synth : Option SynthDevice) (geoField : Option String) :
    List Action :=
  match synth with
  | none => [Action.alertNoSpeech]
  | some d =>
    let polls := pollCount d.voicesAt
    let voices := d.voicesAt polls
    let cc := reverseCountryCode geoField
    List.replicate polls Action.pollVoices ++ [Action.geocode] ++
      (speakQueue voices cc).map Action.speakUtter

/-! ## Helper lemmas -/

/-- A lookup over an association list whose keys avoid `a` yields nothing. -/
theorem lookup_eq_none {β : Type} (l : List (String × β)) (a : String)
    (h : a ∉ l.map Prod.fst) : l.lookup a = none := by
  induction l with
  | nil => rfl
  | cons p t ih =>
    simp only [List.map_cons, List.mem_cons] at h
    push_neg at h
    have hb : (a == p.1) = false := beq_eq_false_iff_ne.mpr h.1
    simp [List.lookup, hb, ih h.2]

/-- Folding an enqueue-one-element step is the same as mapping. -/
theorem foldl_append_singleton {α β : Type} (f : α → β) :
    ∀ (l : List α) (init : List β),
      l.foldl (fun q a => q ++ [f a]) init = init ++ l.map f := by
  intro l
  induction l with
  | nil => intro init; simp
  | cons a t ih => intro init; simp [ih]

/-- The wait loop performs at most `budget + 1` further calls. -/
theorem waitVoices_le (g : Nat → List Voice) :
    ∀ (b c : Nat), waitVoices g c b ≤ c + b + 1 := by
  intro b
  induction b with
  | zero => intro c; simp [waitVoices]
  | succ n ih =>
    intro c
    rw [waitVoices]
    split
    · omega
    · have := ih (c + 1)
      omega

/-- On a device whose voice list never populates, the wait loop runs its
whole budget. -/
theorem waitVoices_all_empty (g : Nat → List Voice) (hg : ∀ n, g n = []) :
    ∀ (b c : Nat), waitVoices g c b = c + b + 1 := by
  intro b
  induction b with
  | zero => intro c; simp [waitVoices]
  | succ n ih =>
    intro c
    rw [waitVoices]
    have := ih (c + 1)
    simp [hg c, this]
    omega

/-- Uppercasing a character never yields an ASCII lowercase letter. -/
theorem jsCharUpper_not_lower (c : Char) :
    ¬(97 ≤ (jsCharUpper c).toNat ∧ (jsCharUpper c).toNat ≤ 122) := by
  unfold jsCharUpper
  split
  · rename_i h
    have hv : (c.toNat - 32).isValidChar := by
      unfold Nat.isValidChar
      omega
    have he : (Char.ofNat (c.toNat - 32)).toNat = c.toNat - 32 := by
      unfold Char.ofNat
      rw [dif_pos hv]
      rfl
    rw [he]
    omega
  · rename_i h
    omega

/-! ## Claims -/

/-- C1, counterexample: with `lang = "yue"` and the single voice tagged
`en-US`, step 1 yields nothing, the `yue` special case finds no `zh` voice,
yet `pickVoiceFor` returns `none` even though an `en`-prefixed voice exists —
the English fallback of step 4 is never consulted for `yue`. -/
theorem C1_counterexample :
    List.filter (matchesLang "yue") [Voice.mk (some "en-US")] = [] ∧
    List.find? (tagStartsWith "zh") [Voice.mk (some "en-US")] = none ∧
    List.find? (tagStartsWith "en") [Voice.mk (some "en-US")]
      = some (Voice.mk (some "en-US")) ∧
    pickVoiceFor "yue" [Voice.mk (some "en-US")] = none := by decide

/-- C1, amended: when the case-insensitive prefix filter (step 1) yields no
candidate, `pickVoiceFor` returns the first `zh`-prefixed voice for `yue`,
the first `fil`-prefixed voice for `tl`, and the first `en`-prefixed voice
for every other code — absent when that single fallback rule has no match;
the `en` rule is not consulted for `yue` or `tl`. -/
theorem pickVoiceFor_fallback (lang : String) (voices : List Voice)
    (h : ∀ v ∈ voices, matchesLang lang v = false) :
    pickVoiceFor lang voices =
      (if lang = "yue" then voices.find? (tagStartsWith "zh")
       else if lang = "tl" then voices.find? (tagStartsWith "fil")
       else voices.find? (tagStartsWith "en")) := by
  have hf : voices.filter (matchesLang lang) = [] := by
    rw [List.filter_eq_nil_iff]
    intro v hv
    simp [h v hv]
  unfold pickVoiceFor
  rw [hf]

/-- C1, witness: `fr` with only an `en-GB` voice falls back to that voice. -/
theorem pickVoiceFor_fallback_witness :
    pickVoiceFor "fr" [Voice.mk (some "en-GB")] = some (Voice.mk (some "en-GB")) := by
  have h := pickVoiceFor_fallback "fr" [Voice.mk (some "en-GB")] (by decide)
  simpa using h

/-- C2: `languagesFor` returns the fixed default list for the empty string
and for every country code absent from `COUNTRY_LANGS`, and the configured
list for every country code present in the table. -/
theorem languagesFor_spec :
    languagesFor "" = DEFAULT_LANGS ∧
    (∀ cc, cc ∉ COUNTRY_LANGS.map Prod.fst → languagesFor cc = DEFAULT_LANGS) ∧
    (∀ p ∈ COUNTRY_LANGS, languagesFor p.1 = p.2) := by
  refine ⟨by decide, ?_, by decide⟩
  intro cc h
  unfold languagesFor
  rw [lookup_eq_none _ _ h]
  rfl

/-- C2, witness: the unknown code `ZZ` maps to the default list. -/
theorem languagesFor_spec_witness :
    languagesFor "ZZ" = DEFAULT_LANGS := languagesFor_spec.2.1 "ZZ" (by decide)

/-- C3, counterexample: on a device whose voice list never populates the
wait loop polls `getVoices()` exactly 12 times, not at most 10. -/
theorem C3_counterexample :
    pollCount (fun _ => []) = 12 ∧ 10 < pollCount (fun _ => []) := by decide

/-- C3, amended: the wait loop always terminates after at most 12 polls
(an immediate check plus up to 11 retries at 200ms, so at most 2200ms of
added latency), stops at the first poll when the list is already non-empty,
and runs all 12 polls when the list never populates. -/
theorem pollCount_bounds (g : Nat → List Voice) :
    pollCount g ≤ 12 ∧
    (g 0 ≠ [] → pollCount g = 1) ∧
    ((∀ n, g n = []) → pollCount g = 12) ∧
    200 * (pollCount g - 1) ≤ 2200 := by
  have hle : pollCount g ≤ 12 := by
    have := waitVoices_le g 11 0
    simpa [pollCount] using this
  refine ⟨hle, ?_, ?_, by omega⟩
  · intro h
    have hlen : (g 0).length ≠ 0 := by
      simpa [List.length_eq_zero] using h
    unfold pollCount
    rw [waitVoices]
    simp [hlen]
  · intro h
    have := waitVoices_all_empty g h 11 0
    simpa [pollCount] using this

/-- C3, witness: a device with a populated voice list is polled once. -/
theorem pollCount_bounds_witness :
    pollCount (fun _ => [Voice.mk (some "en-US")]) = 1 :=
  (pollCount_bounds (fun _ => [Voice.mk (some "en-US")])).2.1 (by decide)

/-- C4: the enqueued utterances are exactly one per language of the
truncated list, in order, with the catalog phrase as text, the resolver
result as voice, rate 0.95 and pitch 1.0; for `US` this yields the five
languages `en, es, zh, vi, ar` and their five phrases in that order. -/
theorem speakQueue_spec (voices : List Voice) (cc : String) :
    speakQueue voices cc = ((languagesFor cc).take 5).map (mkUtterance voices) ∧
    languagesFor "US" = ["en", "es", "zh", "vi", "ar"] ∧
    (speakQueue voices "US").map Utterance.text =
      [ "THIS IS A TEST EMERGENCY"
      , "ESTA ES UNA EMERGENCIA DE PRUEBA"
      , "这是一条测试紧急通知"
      , "ĐÂY LÀ TÌNH HUỐNG KHẨN CẤP THỬ NGHIỆM"
      , "هذه حالة طوارئ تجريبية" ] ∧
    (speakQueue voices "US").map Utterance.voice =
      [ pickVoiceFor "en" voices, pickVoiceFor "es" voices, pickVoiceFor "zh" voices
      , pickVoiceFor "vi" voices, pickVoiceFor "ar" voices ] ∧
    (∀ u ∈ speakQueue voices "US", u.rate = 0.95 ∧ u.pitch = 1.0) ∧
    (speakQueue voices "US").length = 5 := by
  have hq : ∀ c, speakQueue voices c = ((languagesFor c).take 5).map (mkUtterance voices) := by
    intro c
    unfold speakQueue
    rw [foldl_append_singleton]
    rfl
  have hUS : languagesFor "US" = ["en", "es", "zh", "vi", "ar"] := by decide
  refine ⟨hq cc, hUS, ?_, ?_, ?_, ?_⟩
  · rw [hq "US", hUS]
    simp [mkUtterance]
    refine ⟨by decide, by decide, by decide, by decide, by decide⟩
  · rw [hq "US", hUS]
    simp [mkUtterance]
  · rw [hq "US", hUS]
    intro u hu
    simp [mkUtterance] at hu
    rcases hu with h | h | h | h | h <;> exact ⟨by rw [h], by rw [h]⟩
  · rw [hq "US", hUS]
    rfl

/-- C4, witness: the English utterance of the `US` queue carries the fixed
rate and pitch. -/
theorem speakQueue_spec_witness :
    (mkUtterance [] "en").rate = 0.95 ∧ (mkUtterance [] "en").pitch = 1.0 :=
  (speakQueue_spec [] "US").2.2.2.2.1 (mkUtterance [] "en") (by
    rw [(speakQueue_spec [] "US").1, (speakQueue_spec [] "US").2.1]
    exact List.mem_map_of_mem (mkUtterance []) (by decide))

/-- C5: `phraseFor` returns the table entry for every language code present
in `EMERGENCY_PHRASE` and the English phrase for every code absent from it;
being a total function, it never fails. -/
theorem phraseFor_spec :
    (∀ p ∈ EMERGENCY_PHRASE, phraseFor p.1 = p.2) ∧
    (∀ code, code ∉ EMERGENCY_PHRASE.map Prod.fst → phraseFor code = phraseFor "en") := by
  refine ⟨by decide, ?_⟩
  intro code h
  unfold phraseFor
  rw [lookup_eq_none _ _ h]
  decide

/-- C5, witness: the absent code `xx` yields the English phrase. -/
theorem phraseFor_spec_witness :
    phraseFor "xx" = phraseFor "en" := phraseFor_spec.2 "xx" (by decide)

/-- C6: with voices `en-US, zh-CN`, resolving `yue` returns the `zh-CN`
voice (Cantonese-to-Mandarin fallback); with voices `en-US, fil-PH` (no tag
starting with `tl`), resolving `tl` returns the `fil-PH` voice. -/
theorem pickVoiceFor_special_cases :
    pickVoiceFor "yue" [Voice.mk (some "en-US"), Voice.mk (some "zh-CN")]
      = some (Voice.mk (some "zh-CN")) ∧
    pickVoiceFor "tl" [Voice.mk (some "en-US"), Voice.mk (some "fil-PH")]
      = some (Voice.mk (some "fil-PH")) := by decide

/-- C7: on the empty voice list `pickVoiceFor` returns `none` for every
language code; as a total Lean function it never raises. -/
theorem pickVoiceFor_empty (lang : String) : pickVoiceFor lang [] = none := by
  unfold pickVoiceFor
  simp

/-- C7, witness: concrete instance at `yue`. -/
theorem pickVoiceFor_empty_witness : pickVoiceFor "yue" [] = none :=
  pickVoiceFor_empty "yue"

/-- C8: without a speech-synthesis device the announcement trace is exactly
the capability alert — no voice poll, no geocode request, no utterance. -/
theorem announce_no_synth (geoField : Option String) :
    speakTestEmergencyAt none geoField = [Action.alertNoSpeech] ∧
    Action.pollVoices ∉ speakTestEmergencyAt none geoField ∧
    Action.geocode ∉ speakTestEmergencyAt none geoField ∧
    ∀ u, Action.speakUtter u ∉ speakTestEmergencyAt none geoField := by
  refine ⟨rfl, ?_, ?_, ?_⟩ <;> simp [speakTestEmergencyAt]

/-- C8, witness: concrete instance at geocode field `fr`. -/
theorem announce_no_synth_witness :
    speakTestEmergencyAt none (some "fr") = [Action.alertNoSpeech] :=
  (announce_no_synth (some "fr")).1

/-- The ASCII apostrophe character (code point 39). -/
def asciiApostrophe : String := String.singleton (Char.ofNat 39)

/-- The French phrase as written in the spec, with an ASCII apostrophe. -/
def claimedFrenchPhrase : String :=
  "Ceci est une alerte d" ++ asciiApostrophe ++ "urgence de test"

/-- C9, counterexample: the first utterance for a click resolving to `FR`
carries the French phrase spelled with U+2019 (right single quotation mark),
which is not the ASCII-apostrophe string stated in the spec. -/
theorem C9_counterexample :
    (speakQueue [] (reverseCountryCode (some "fr"))).head?.map Utterance.text
      = some "Ceci est une alerte d’urgence de test" ∧
    (speakQueue [] (reverseCountryCode (some "fr"))).head?.map Utterance.text
      ≠ some claimedFrenchPhrase ∧
    "Ceci est une alerte d’urgence de test" ≠ claimedFrenchPhrase := by
  refine ⟨?_, ?_, ?_⟩ <;> decide

/-- C9, amended: a click whose geocode field is `fr` resolves to country
code `FR`, whose first language is `fr`, and the first enqueued utterance
carries exactly the catalog string `Ceci est une alerte d’urgence de test`
(with U+2019, not an ASCII apostrophe), for any voice list. -/
theorem french_first_utterance (voices : List Voice) :
    reverseCountryCode (some "fr") = "FR" ∧
    (languagesFor "FR").head? = some "fr" ∧
    (speakQueue voices (reverseCountryCode (some "fr"))).head?.map Utterance.text
      = some "Ceci est une alerte d’urgence de test" := by
  refine ⟨by decide, by decide, ?_⟩
  have hq : speakQueue voices "FR" = ((languagesFor "FR").take 5).map (mkUtterance voices) := by
    unfold speakQueue
    rw [foldl_append_singleton]
    rfl
  have hcc : reverseCountryCode (some "fr") = "FR" := by decide
  rw [hcc, hq]
  have hFR : languagesFor "FR" = ["fr", "en", "es", "ar", "pt"] := by decide
  rw [hFR]
  simp [mkUtterance]
  decide

/-- C9, witness: concrete instance on the empty voice list. -/
theorem french_first_utterance_witness :
    (speakQueue [] (reverseCountryCode (some "fr"))).head?.map Utterance.text
      = some "Ceci est une alerte d’urgence de test" :=
  (french_first_utterance []).2.2

/-- C10: `reverseCountryCode` returns the empty string when the field is
absent, the uppercased field otherwise, and its result never contains an
ASCII lowercase letter; in particular `us` becomes `US`. -/
theorem reverseCountryCode_spec :
    reverseCountryCode none = "" ∧
    (∀ s, reverseCountryCode (some s) = jsToUpperCase s) ∧
    (∀ f, ∀ c ∈ (reverseCountryCode f).data, ¬(97 ≤ c.toNat ∧ c.toNat ≤ 122)) ∧
    reverseCountryCode (some "us") = "US" := by
  refine ⟨rfl, ?_, ?_, by decide⟩
  · intro s
    by_cases h : s = ""
    · rw [h]
      rfl
    · simp [reverseCountryCode, jsOr, h]
  · intro f c hc
    have hm : ∃ c₀ ∈ (jsOr f "").data, jsCharUpper c₀ = c := by
      simpa [reverseCountryCode, jsToUpperCase] using hc
    rcases hm with ⟨c₀, _, hc₀⟩
    rw [← hc₀]
    exact jsCharUpper_not_lower c₀

/-- C10, witness: the first character of the uppercased `us` is not an
ASCII lowercase letter. -/
theorem reverseCountryCode_spec_witness :
    ¬(97 ≤ ('U' : Char).toNat ∧ ('U' : Char).toNat ≤ 122) :=
  reverseCountryCode_spec.2.2.1 (some "us") 'U' (by decide)

end RiverHacks
